import Mathlib

/-!
Verification of the laptop store and handler of `grpc_app`
(src/service/laptop_store.go and the `LaptopServer.CreateLaptop` handler).

Modelling conventions:
* The `pb` message types are generated protobuf code that is not part of the
  checked sources; they are modelled from the spec's data model (section 3):
  a filter has four optional bounds, a record has an identifier, a price,
  a CPU sub-message and a RAM sub-message.  Protobuf getters return the zero
  value of the field when the field (or the whole message) is absent — this
  is the universal semantics of generated Go getters and is reflected by the
  `get*` functions below.
* `double` fields (price, GHz) are only ever compared, never computed with,
  so they are modelled as rationals; `uint64`/`uint32` fields as `Nat`, with
  an explicit `% 2^64` wherever the Go code can overflow (the shifts in
  `toBit`).
* The external copier library (`github.com/jinzhu/copier`) is modelled as an
  explicit function parameter `copy : CopyFn`; a run of the copier either
  fails with a message or succeeds, and a correct run reproduces the record.
* Go methods that mutate the store are modelled by explicit state passing:
  they take the current map contents and return the new contents together
  with the Go return values.  The map is an association list whose order
  stands for the (unspecified) map iteration order.
-/

namespace GrpcApp

/-- Modelled from the spec: the memory-unit enum of the wire schema (the `pb`
package, not under the checked sources).  The spec's unit-normalization table
lists bit, byte, kilobyte, megabyte, gigabyte, terabyte plus an unrecognized
case ("unrecognized unit → 0"); protobuf enums carry a zero default for an
absent field. -/
inductive MemUnit where
  | UNKNOWN
  | BIT
  | BYTE
  | KILOBYTE
  | MEGABYTE
  | GIGABYTE
  | TERABYTE
deriving DecidableEq, Repr

/-- Modelled from the spec: the memory message — a magnitude (uint64) plus a
unit. -/
structure Memory where
  value : Nat
  unit : MemUnit
deriving DecidableEq, Repr

/-- Modelled from the spec: the CPU sub-message — core count (uint32) and
minimum clock speed (double, modelled as a rational). -/
structure CPU where
  numberCores : Nat
  minGhz : ℚ
deriving DecidableEq, Repr

/-- Modelled from the spec: the laptop record — an identifier, a price and the
two nested sub-messages, which as protobuf message fields may be absent. -/
structure Laptop where
  id : String
  priceUsd : ℚ
  cpu : Option CPU
  ram : Option Memory
deriving DecidableEq, Repr

/-- Modelled from the spec: the filter — "a value object with four optional
bounds: max price, min CPU core count, min CPU clock speed, min memory". -/
structure Filter where
  maxPriceUsd : Option ℚ
  minCpuCores : Option Nat
  minCpuGhz : Option ℚ
  minRam : Option Memory
deriving DecidableEq, Repr

/-- Protobuf getter: `GetValue` on a possibly-nil memory message. -/
def getValue : Option Memory → Nat
  | none => 0
  | some m => m.value

/-- Protobuf getter: `GetUnit` on a possibly-nil memory message. -/
def getUnit : Option Memory → MemUnit
  | none => MemUnit.UNKNOWN
  | some m => m.unit

/-- Protobuf getter: `GetNumberCores` on a possibly-nil CPU message. -/
def getNumberCores : Option CPU → Nat
  | none => 0
  | some c => c.numberCores

/-- Protobuf getter: `GetMinGhz` on a possibly-nil CPU message. -/
def getMinGhz : Option CPU → ℚ
  | none => 0
  | some c => c.minGhz

/-- Protobuf getter: `GetPriceUsd` on a laptop record. -/
def getPriceUsd (l : Laptop) : ℚ := l.priceUsd

/-- Protobuf getter: `GetCpu` on a laptop record. -/
def getCpu (l : Laptop) : Option CPU := l.cpu

/-- Protobuf getter: `GetRam` on a laptop record. -/
def getRam (l : Laptop) : Option Memory := l.ram

/-- Protobuf getter: `GetMaxPriceUsd` — zero when the bound is absent. -/
def getMaxPriceUsd (f : Filter) : ℚ := f.maxPriceUsd.getD 0

/-- Protobuf getter: `GetMinCpuCores` — zero when the bound is absent. -/
def getMinCpuCores (f : Filter) : Nat := f.minCpuCores.getD 0

/-- Protobuf getter: `GetMinCpuGhz` — zero when the bound is absent. -/
def getMinCpuGhz (f : Filter) : ℚ := f.minCpuGhz.getD 0

/-- Protobuf getter: `GetMinRam` on a filter. -/
def getMinRam (f : Filter) : Option Memory := f.minRam

/-- The uint64 modulus: Go shifts on `uint64` wrap modulo `2 ^ 64`. -/
def U64 : Nat := 2 ^ 64

/-- `toBit` from src/service/laptop_store.go lines 127–146: converts a memory
message to a bit count by a left shift on `uint64`.  The magnitude is a
`uint64` field, so every branch is reduced modulo `2 ^ 64`, which is both the
field's range and the wraparound of the Go shifts. -/
def toBit (memory : Option Memory) : Nat :=
  let value := getValue memory
  match getUnit memory with
  | MemUnit.BIT => value % U64
  | MemUnit.BYTE => (value <<< 3) % U64
  | MemUnit.KILOBYTE => (value <<< 13) % U64
  | MemUnit.MEGABYTE => (value <<< 23) % U64
  | MemUnit.GIGABYTE => (value <<< 33) % U64
  | MemUnit.TERABYTE => (value <<< 43) % U64
  | MemUnit.UNKNOWN => 0

/-- `isQualified` from src/service/laptop_store.go lines 107–125: the
qualification predicate, a sequence of early-exit comparisons through the
protobuf getters. -/
def isQualified (filter : Filter) (laptop : Laptop) : Bool :=
  if getPriceUsd laptop > getMaxPriceUsd filter then false
  else if getNumberCores (getCpu laptop) < getMinCpuCores filter then false
  else if getMinGhz (getCpu laptop) < getMinCpuGhz filter then false
  else if toBit (getRam laptop) < toBit (getMinRam filter) then false
  else true

/-- One run of the external copier library on a record: either a failure
message or the produced record.  `deepCopy`, `Save`, `Find` and `Search` take
the copier as a parameter. -/
abbrev CopyFn : Type := Laptop → Except String Laptop

/-- A correct copier run: it succeeds and reproduces the record (value
equality is all a pure model can state of "a deep, independent copy"). -/
def CorrectCopy (copy : CopyFn) : Prop := ∀ l, copy l = Except.ok l

/-- A faithful copier: whenever it succeeds, the produced record equals the
input (it may still fail). -/
def FaithfulCopy (copy : CopyFn) : Prop :=
  ∀ l r, copy l = Except.ok r → r = l

/-- `deepCopy` from src/service/laptop_store.go lines 149–157: runs the
copier into a fresh record and wraps a failure message. -/
def deepCopy (copy : CopyFn) (laptop : Laptop) : Except String Laptop :=
  match copy laptop with
  | Except.error e => Except.error ("cannot copy laptop data: " ++ e)
  | Except.ok other => Except.ok other

/-- The in-memory store's map contents.  The association list's order stands
for the unspecified Go map iteration order; all keys are distinct (the map
invariant proved below). -/
abbrev StoreData : Type := List (String × Laptop)

/-- Go map read `store.data[id]`: the entry for `id`, if present. -/
def lookupData (data : StoreData) (id : String) : Option Laptop :=
  match data.find? (fun p => p.1 == id) with
  | none => none
  | some p => some p.2

/-- Go map write `store.data[id] = l` for a key that is absent (the only way
`Save` writes). -/
def insertData (data : StoreData) (id : String) (l : Laptop) : StoreData :=
  data ++ [(id, l)]

/-- The errors `Save` can return: the sentinel `ErrAlreadyExist`, or a
wrapped copier failure. -/
inductive SaveErr where
  | alreadyExist
  | copyFail (msg : String)
deriving DecidableEq, Repr

/-- `InMemoryLaptopStore.Save` from src/service/laptop_store.go lines 43–59,
with the receiver's map passed and returned explicitly: reject an identifier
that is already present, otherwise insert a deep copy keyed by the copy's
identifier. -/
def Save (copy : CopyFn) (data : StoreData) (laptop : Laptop) :
    StoreData × Option SaveErr :=
  if (lookupData data laptop.id).isSome then
    (data, some SaveErr.alreadyExist)
  else
    match deepCopy copy laptop with
    | Except.error e => (data, some (SaveErr.copyFail e))
    | Except.ok other => (insertData data other.id other, none)

/-- A sequence of `Save` calls, threading the map contents; a failed call
leaves the map as it was. -/
def runSaves (copy : CopyFn) (data : StoreData) : List Laptop → StoreData
  | [] => data
  | l :: ls => runSaves copy (Save copy data l).1 ls

/-- Go's two-valued return `(*pb.Laptop, error)` for a copy result. -/
def exceptToPair : Except String Laptop → Option Laptop × Option String
  | Except.error e => (none, some e)
  | Except.ok l => (some l, none)

/-- `InMemoryLaptopStore.Find` from src/service/laptop_store.go lines 62–78,
returning Go's `(*pb.Laptop, error)` pair: `(nil, nil)` when the identifier
is absent; otherwise a first copy whose result is discarded on success
(lines 72–76), then `return deepCopy(laptop)`. -/
def Find (copy : CopyFn) (data : StoreData) (id : String) :
    Option Laptop × Option String :=
  match lookupData data id with
  | none => (none, none)
  | some laptop =>
    match copy laptop with
    | Except.error e => (none, some ("cannot copy laptop data: " ++ e))
    | Except.ok _other => exceptToPair (deepCopy copy laptop)

/-- The implementation the spec's design note asks for: `Find` with exactly
one copy per call.  Stated from the spec's words, to be compared with `Find`
in the refinement claim. -/
def FindOneCopy (copy : CopyFn) (data : StoreData) (id : String) :
    Option Laptop × Option String :=
  match lookupData data id with
  | none => (none, none)
  | some laptop => exceptToPair (deepCopy copy laptop)

/-- The outcome of `Search`: clean termination, a copier failure, or the
error returned by the per-match callback. -/
inductive SearchResult (ε : Type) where
  | ok
  | copyFail (msg : String)
  | callbackErr (e : ε)
deriving DecidableEq, Repr

/-- `InMemoryLaptopStore.Search` from src/service/laptop_store.go lines
81–105: iterate the map, and for each qualifying record pass a deep copy to
the callback, aborting on a copy failure or a callback failure.  The Go
callback is an effectful closure; it is embedded state-passing style as
`found : σ → Laptop → Except ε σ`, with the state threaded through the
scan. -/
def Search {σ ε : Type} (copy : CopyFn) (filter : Filter)
    (found : σ → Laptop → Except ε σ) (s : σ) :
    StoreData → σ × SearchResult ε
  | [] => (s, SearchResult.ok)
  | (_, laptop) :: rest =>
    if isQualified filter laptop then
      match deepCopy copy laptop with
      | Except.error e => (s, SearchResult.copyFail e)
      | Except.ok other =>
        match found s other with
        | Except.error e => (s, SearchResult.callbackErr e)
        | Except.ok s2 => Search copy filter found s2 rest
    else
      Search copy filter found s rest

/-- The records of the map that satisfy the qualification predicate, in
iteration order. -/
def qualifying (filter : Filter) (data : StoreData) : List Laptop :=
  (data.filter (fun p => isQualified filter p.2)).map Prod.snd

/-- Instrumentation of a stateless Go callback `g`: the threaded state logs
each record on which `g` was invoked and returned success. -/
def logCalls {ε : Type} (g : Laptop → Except ε Unit) (acc : List Laptop)
    (l : Laptop) : Except ε (List Laptop) :=
  match g l with
  | Except.error e => Except.error e
  | Except.ok _ => Except.ok (acc ++ [l])

/-- Run a stateless callback down a list of records, stopping at the first
failure: returns the successfully visited records and the first error. -/
def runCalls {ε : Type} (g : Laptop → Except ε Unit) :
    List Laptop → List Laptop × Option ε
  | [] => ([], none)
  | l :: rest =>
    match g l with
    | Except.error e => ([], some e)
    | Except.ok _ => (l :: (runCalls g rest).1, (runCalls g rest).2)

/-- The gRPC status codes the handler uses. -/
inductive Code where
  | OK
  | InvalidArgument
  | AlreadyExists
  | Internal
deriving DecidableEq, Repr

/-- The observable outcome of one `CreateLaptop` call: the response
identifier (present exactly on success), the status code (`OK` on success),
the store map after the call, and the request's record after the call (the
handler mutates it in place when it generates an identifier). -/
structure CreateResult where
  response : Option String
  code : Code
  store : StoreData
  laptop : Laptop
deriving DecidableEq, Repr

/-- The tail of `LaptopServer.CreateLaptop` (src/unnamed/part_000 lines
45–59) once the record's identifier is settled: call `Store.Save`, translate
`ErrAlreadyExist` to `AlreadyExists` and any other failure to `Internal`,
and on success respond with the record's identifier. -/
def saveAndRespond (copy : CopyFn) (data : StoreData) (laptop : Laptop) :
    CreateResult :=
  match Save copy data laptop with
  | (data2, some SaveErr.alreadyExist) =>
    { response := none, code := Code.AlreadyExists, store := data2,
      laptop := laptop }
  | (data2, some (SaveErr.copyFail _)) =>
    { response := none, code := Code.Internal, store := data2,
      laptop := laptop }
  | (data2, none) =>
    { response := some laptop.id, code := Code.OK, store := data2,
      laptop := laptop }

/-- `LaptopServer.CreateLaptop` from src/unnamed/part_000 lines 24–60.  The
external UUID library is passed as parameters: `parse` is one run of
`uuid.Parse` on the request's identifier, `gen` the outcome of one call of
`uuid.NewRandom` (the generated identifier in textual form, or a failure).
A non-empty identifier is validated with `parse` (failure →
`InvalidArgument`); an empty one is replaced by a generated identifier
(generation failure → `Internal`), mutating the request's record in place;
then the record is saved. -/
def CreateLaptop (parse : String → Except String Unit)
    (gen : Except String String) (copy : CopyFn) (data : StoreData)
    (laptop : Laptop) : CreateResult :=
  if laptop.id.length > 0 then
    match parse laptop.id with
    | Except.error _ =>
      { response := none, code := Code.InvalidArgument, store := data,
        laptop := laptop }
    | Except.ok _ => saveAndRespond copy data laptop
  else
    match gen with
    | Except.error _ =>
      { response := none, code := Code.Internal, store := data,
        laptop := laptop }
    | Except.ok newId => saveAndRespond copy data { laptop with id := newId }

/-! ### Concrete values used in counterexamples and witnesses -/

/-- The always-succeeding identity copier: the behaviour of a correct copier
run. -/
def okCopy : CopyFn := fun l => Except.ok l

/-- A filter with all four bounds absent (in particular the max-price bound
is unset). -/
def filterUnsetMax : Filter :=
  { maxPriceUsd := none, minCpuCores := none, minCpuGhz := none,
    minRam := none }

/-- A record with a positive price and no CPU/RAM sub-messages. -/
def pricedLaptop : Laptop :=
  { id := "a", priceUsd := 999, cpu := none, ram := none }

/-- The spec's unit-multiplier table: bit ×1, byte ×8, kilobyte ×8192,
megabyte ×8388608, gigabyte ×8589934592, terabyte ×8796093022208,
unrecognized ×0. -/
def unitMultiplier : MemUnit → Nat
  | MemUnit.BIT => 1
  | MemUnit.BYTE => 8
  | MemUnit.KILOBYTE => 8192
  | MemUnit.MEGABYTE => 8388608
  | MemUnit.GIGABYTE => 8589934592
  | MemUnit.TERABYTE => 8796093022208
  | MemUnit.UNKNOWN => 0

/-- The spec's concrete filter-correctness record: price 999, 4 cores,
2.5 GHz, 8 GiB of RAM. -/
def specLaptop : Laptop :=
  { id := "L1", priceUsd := 999,
    cpu := some { numberCores := 4, minGhz := mkRat 5 2 },
    ram := some { value := 8, unit := MemUnit.GIGABYTE } }

/-- The spec's concrete filter: max price 1000, at least 4 cores, 2.0 GHz,
4 GiB of RAM. -/
def specFilter : Filter :=
  { maxPriceUsd := some 1000, minCpuCores := some 4, minCpuGhz := some 2,
    minRam := some { value := 4, unit := MemUnit.GIGABYTE } }

/-- A callback that collects every record it is invoked on and never
fails. -/
def collect : List Laptop → Laptop → Except Unit (List Laptop) :=
  fun acc l => Except.ok (acc ++ [l])

/-! ### C1: the max-price conjunct and unset bounds -/

/-- C1: the claim as stated is false — with the max-price bound unset the
code still compares against the getter's zero default, so a record whose
price is positive is disqualified by its price alone, even though it passes
every other conjunct (shown by the same record qualifying once the bound is
raised to its price). -/
theorem isQualified_unsetMaxPrice_counterexample :
    filterUnsetMax.maxPriceUsd = none ∧
    isQualified { filterUnsetMax with maxPriceUsd := some 999 }
      pricedLaptop = true ∧
    isQualified filterUnsetMax pricedLaptop = false := by
  refine ⟨rfl, ?_, ?_⟩ <;> decide

/-- C1 (amended): the max-price conjunct is always enforced, reading an
unset bound through its getter as 0: a record qualifies exactly when its
price is at most `getMaxPriceUsd` of the filter (0 when unset) and the three
minimum conjuncts hold. -/
theorem isQualified_iff (f : Filter) (l : Laptop) :
    isQualified f l = true ↔
      (getPriceUsd l ≤ getMaxPriceUsd f ∧
       getMinCpuCores f ≤ getNumberCores (getCpu l) ∧
       getMinCpuGhz f ≤ getMinGhz (getCpu l) ∧
       toBit (getMinRam f) ≤ toBit (getRam l)) := by
  unfold isQualified
  split_ifs with h1 h2 h3 h4
  · simp only [Bool.false_eq_true, false_iff]
    intro hc
    exact absurd h1 (not_lt.mpr hc.1)
  · simp only [Bool.false_eq_true, false_iff]
    intro hc
    exact absurd h2 (not_lt.mpr hc.2.1)
  · simp only [Bool.false_eq_true, false_iff]
    intro hc
    exact absurd h3 (not_lt.mpr hc.2.2.1)
  · simp only [Bool.false_eq_true, false_iff]
    intro hc
    exact absurd h4 (not_lt.mpr hc.2.2.2)
  · simp only [true_iff]
    exact ⟨not_lt.mp h1, not_lt.mp h2, not_lt.mp h3, not_lt.mp h4⟩

/-! ### C4: unit normalization -/

/-- C4: the claim as stated is false — the shifts are `uint64` arithmetic,
so for the valid magnitude `2 ^ 61` the byte branch wraps to 0 rather than
multiplying by exactly 8. -/
theorem toBit_overflow_counterexample :
    toBit (some { value := 2 ^ 61, unit := MemUnit.BYTE }) ≠ 2 ^ 61 * 8 ∧
    2 ^ 61 < U64 := by
  refine ⟨?_, ?_⟩ <;> decide

/-- C4 (amended): `toBit` multiplies the magnitude by the unit's multiplier
(1, 8, 8192, 8388608, 8589934592, 8796093022208; 0 for an unrecognized
unit) reduced modulo `2 ^ 64` — exact whenever the product fits in 64
bits — and the three concrete one-gigabyte expressions agree. -/
theorem toBit_eq_mul_mod (m : Option Memory) :
    toBit m = getValue m * unitMultiplier (getUnit m) % U64 ∧
    toBit (some { value := 1, unit := MemUnit.GIGABYTE }) =
      toBit (some { value := 1024, unit := MemUnit.MEGABYTE }) ∧
    toBit (some { value := 1024, unit := MemUnit.MEGABYTE }) =
      toBit (some { value := 1073741824, unit := MemUnit.BYTE }) := by
  refine ⟨?_, by decide, by decide⟩
  cases m with
  | none => rfl
  | some mm =>
    cases mm with
    | mk v u =>
      cases u <;>
        simp [toBit, getValue, getUnit, unitMultiplier, Nat.shiftLeft_eq,
          U64]

/-! ### C5: the spec's concrete filter-correctness instance -/

/-- C5: the concrete record qualifies under the spec's filter and is
delivered by `Search`, and is disqualified (and not delivered) when the max
price is lowered to 500 or the RAM floor raised to 16 GiB. -/
theorem specLaptop_search :
    isQualified specFilter specLaptop = true ∧
    Search okCopy specFilter collect [] [(specLaptop.id, specLaptop)] =
      ([specLaptop], SearchResult.ok) ∧
    isQualified { specFilter with maxPriceUsd := some 500 } specLaptop
      = false ∧
    Search okCopy { specFilter with maxPriceUsd := some 500 } collect []
      [(specLaptop.id, specLaptop)] = ([], SearchResult.ok) ∧
    isQualified
      { specFilter with
        minRam := some { value := 16, unit := MemUnit.GIGABYTE } }
      specLaptop = false ∧
    Search okCopy
      { specFilter with
        minRam := some { value := 16, unit := MemUnit.GIGABYTE } }
      collect [] [(specLaptop.id, specLaptop)] = ([], SearchResult.ok) := by
  decide

/-! ### C2: Save never duplicates an identifier -/

/-- An absent identifier is exactly one that is no entry's key. -/
lemma lookupData_eq_none_iff (data : StoreData) (id : String) :
    lookupData data id = none ↔ ∀ p ∈ data, p.1 ≠ id := by
  unfold lookupData
  cases hf : data.find? (fun p => p.1 == id) with
  | none =>
    simp only [true_iff]
    intro p hp
    have := List.find?_eq_none.mp hf p hp
    simpa using this
  | some q =>
    simp only [reduceCtorEq, false_iff, not_forall]
    have hq := List.find?_some hf
    have hqm := List.mem_of_find?_eq_some hf
    exact ⟨q, hqm, by simpa using hq⟩

/-- A present identifier is some entry's key. -/
lemma mem_keys_of_lookupData_isSome (data : StoreData) (id : String)
    (h : (lookupData data id).isSome) : id ∈ data.map Prod.fst := by
  rcases Option.isSome_iff_exists.mp h with ⟨l, hl⟩
  by_contra hmem
  have hnone : lookupData data id = none := by
    rw [lookupData_eq_none_iff]
    intro p hp hpe
    exact hmem (hpe ▸ List.mem_map_of_mem Prod.fst hp)
  rw [hnone] at hl
  exact Option.noConfusion hl

/-- One faithful `Save` preserves distinctness of the map's keys. -/
lemma save_keys_nodup (copy : CopyFn) (h : FaithfulCopy copy)
    (data : StoreData) (l : Laptop)
    (hnd : (data.map Prod.fst).Nodup) :
    (((Save copy data l).1).map Prod.fst).Nodup := by
  unfold Save
  by_cases hlk : (lookupData data l.id).isSome = true
  · simp only [if_pos hlk]
    simpa using hnd
  · simp only [if_neg hlk]
    cases hc : deepCopy copy l with
    | error e => simpa using hnd
    | ok other =>
      have hol : other = l := by
        unfold deepCopy at hc
        cases hcl : copy l with
        | error e => rw [hcl] at hc; exact Except.noConfusion hc
        | ok r =>
          rw [hcl] at hc
          have hr : r = other := Except.ok.inj hc
          exact hr ▸ h l r hcl
      have hnone : lookupData data l.id = none :=
        Option.not_isSome_iff_eq_none.mp hlk
      have hid : l.id ∉ data.map Prod.fst := by
        intro hm
        rcases List.mem_map.mp hm with ⟨p, hp, hpe⟩
        exact absurd hpe ((lookupData_eq_none_iff data l.id).mp hnone p hp)
      simp only [insertData, List.map_append, List.map_cons, List.map_nil]
      rw [List.nodup_append]
      refine ⟨hnd, List.nodup_singleton _, ?_⟩
      intro a ha hb
      simp only [List.mem_singleton] at hb
      rw [hb, hol] at ha
      exact hid ha

/-- C2: starting from the empty map, after any sequence of `Save` calls the
map's keys are pairwise distinct (so no two successful saves shared an
identifier and the map never holds two records with one identifier); and a
`Save` whose identifier is already present returns the `AlreadyExists`
sentinel and leaves the map — in particular that identifier's entry —
unchanged (first write wins). -/
theorem save_uniqueness (copy : CopyFn) (h : FaithfulCopy copy) :
    (∀ ls : List Laptop, ((runSaves copy [] ls).map Prod.fst).Nodup) ∧
    (∀ (data : StoreData) (l x : Laptop),
       lookupData data l.id = some x →
       Save copy data l = (data, some SaveErr.alreadyExist) ∧
       lookupData (Save copy data l).1 l.id = some x) := by
  constructor
  · have key : ∀ (ls : List Laptop) (data : StoreData),
        (data.map Prod.fst).Nodup →
        ((runSaves copy data ls).map Prod.fst).Nodup := by
      intro ls
      induction ls with
      | nil => intro data hnd; simpa [runSaves] using hnd
      | cons l rest ih =>
        intro data hnd
        exact ih (Save copy data l).1 (save_keys_nodup copy h data l hnd)
    intro ls
    exact key ls [] (by simp)
  · intro data l x hlk
    have hsome : (lookupData data l.id).isSome = true := by
      rw [hlk]; rfl
    have heq : Save copy data l = (data, some SaveErr.alreadyExist) := by
      unfold Save
      rw [if_pos hsome]
    exact ⟨heq, by rw [heq, hlk]⟩

/-- C2 witness: with the identity copier, saving the same record twice from
the empty map keeps the keys distinct, and the second save on a map already
holding that identifier is rejected with the entry intact. -/
theorem save_uniqueness_witness :
    ((runSaves okCopy [] [pricedLaptop, pricedLaptop]).map Prod.fst).Nodup ∧
    (Save okCopy [(pricedLaptop.id, pricedLaptop)] pricedLaptop =
       ([(pricedLaptop.id, pricedLaptop)], some SaveErr.alreadyExist) ∧
     lookupData
       (Save okCopy [(pricedLaptop.id, pricedLaptop)] pricedLaptop).1
       pricedLaptop.id = some pricedLaptop) :=
  ⟨(save_uniqueness okCopy (fun _ _ hr => (Except.ok.inj hr).symm)).1
      [pricedLaptop, pricedLaptop],
   (save_uniqueness okCopy (fun _ _ hr => (Except.ok.inj hr).symm)).2
      [(pricedLaptop.id, pricedLaptop)] pricedLaptop pricedLaptop
      (by decide)⟩

/-! ### C6 and C9: Find -/

/-- C6: under a correct copier run, `Find` returns the stored record (as a
value-equal copy) with a nil error when the identifier is present, and the
`(nil, nil)` not-found pair — an explicit absence, not an error — when it is
absent. -/
theorem find_spec (copy : CopyFn) (h : CorrectCopy copy) (data : StoreData)
    (id : String) :
    (lookupData data id = none → Find copy data id = (none, none)) ∧
    (∀ l, lookupData data id = some l → Find copy data id = (some l, none)) := by
  constructor
  · intro hlk
    unfold Find
    rw [hlk]
  · intro l hlk
    unfold Find
    rw [hlk]
    simp only [h l, deepCopy, exceptToPair]

/-- C6 witness: with the identity copier on a one-record map, `Find` returns
the record for its identifier and `(none, none)` for a missing one. -/
theorem find_spec_witness :
    Find okCopy [(pricedLaptop.id, pricedLaptop)] "missing" = (none, none) ∧
    Find okCopy [(pricedLaptop.id, pricedLaptop)] pricedLaptop.id =
      (some pricedLaptop, none) :=
  ⟨(find_spec okCopy (fun _ => rfl) [(pricedLaptop.id, pricedLaptop)]
      "missing").1 (by decide),
   (find_spec okCopy (fun _ => rfl) [(pricedLaptop.id, pricedLaptop)]
      pricedLaptop.id).2 pricedLaptop (by decide)⟩

/-- C9: when the identifier is present and the first (discarded) copy
succeeds, `Find` coincides with the one-copy implementation and returns
exactly that single deep copy of the stored record. -/
theorem find_one_copy_refinement (copy : CopyFn) (data : StoreData)
    (id : String) (l c : Laptop) (h1 : lookupData data id = some l)
    (h2 : copy l = Except.ok c) :
    Find copy data id = FindOneCopy copy data id ∧
    Find copy data id = (some c, none) := by
  unfold Find FindOneCopy
  rw [h1]
  simp [h2, deepCopy, exceptToPair]

/-- C9 witness: the identity copier on a one-record map. -/
theorem find_one_copy_refinement_witness :
    Find okCopy [(pricedLaptop.id, pricedLaptop)] pricedLaptop.id =
      FindOneCopy okCopy [(pricedLaptop.id, pricedLaptop)] pricedLaptop.id ∧
    Find okCopy [(pricedLaptop.id, pricedLaptop)] pricedLaptop.id =
      (some pricedLaptop, none) :=
  find_one_copy_refinement okCopy [(pricedLaptop.id, pricedLaptop)]
    pricedLaptop.id pricedLaptop pricedLaptop (by decide) rfl

/-! ### C3: the Search callback contract -/

/-- Package an optional callback error as a `Search` outcome. -/
def resOfOpt {ε : Type} : Option ε → SearchResult ε
  | none => SearchResult.ok
  | some e => SearchResult.callbackErr e

/-- Unfolding `qualifying` over one map entry. -/
lemma qualifying_cons (f : Filter) (k : String) (l : Laptop)
    (rest : StoreData) :
    qualifying f ((k, l) :: rest) =
      if isQualified f l then l :: qualifying f rest
      else qualifying f rest := by
  unfold qualifying
  rw [List.filter_cons]
  by_cases hq : isQualified f l <;> simp [hq]

/-- With a correct copier, `Search` instrumented with `logCalls` is the run
of the stateless callback down the qualifying records: the log accumulates
the successfully visited records and the outcome is the first callback
error, if any. -/
lemma search_log_eq {ε : Type} (copy : CopyFn) (hc : CorrectCopy copy)
    (f : Filter) (g : Laptop → Except ε Unit) :
    ∀ (data : StoreData) (acc : List Laptop),
      Search copy f (logCalls g) acc data =
        (acc ++ (runCalls g (qualifying f data)).1,
         resOfOpt (runCalls g (qualifying f data)).2) := by
  intro data
  induction data with
  | nil =>
    intro acc
    simp [Search, qualifying, runCalls, resOfOpt]
  | cons p rest ih =>
    intro acc
    obtain ⟨k, l⟩ := p
    by_cases hq : isQualified f l
    · cases hgl : g l with
      | error e =>
        simp [Search, hq, deepCopy, hc l, logCalls, hgl, qualifying_cons,
          runCalls, resOfOpt]
      | ok u =>
        simp only [Search, hq, if_true, deepCopy, hc l, logCalls, hgl]
        rw [ih (acc ++ [l])]
        simp [qualifying_cons, hq, runCalls, hgl]
    · simp only [Search, hq, if_false, Bool.false_eq_true]
      rw [ih acc]
      simp [qualifying_cons, hq]

/-- A callback that succeeds on every record of a list visits all of it. -/
lemma runCalls_all_ok {ε : Type} (g : Laptop → Except ε Unit) :
    ∀ ls : List Laptop, (∀ l ∈ ls, g l = Except.ok ()) →
      runCalls g ls = (ls, none) := by
  intro ls
  induction ls with
  | nil => intro _; rfl
  | cons l rest ih =>
    intro hall
    have hl : g l = Except.ok () := hall l (List.mem_cons_self l rest)
    have hrest := ih (fun p hp => hall p (List.mem_cons_of_mem l hp))
    simp [runCalls, hl, hrest]

/-- A callback failing at position `pre.length` stops the run there: the
visited records are exactly `pre` and the outcome is that error. -/
lemma runCalls_first_err {ε : Type} (g : Laptop → Except ε Unit) :
    ∀ (pre : List Laptop) (l : Laptop) (post : List Laptop) (e : ε),
      (∀ p ∈ pre, g p = Except.ok ()) → g l = Except.error e →
      runCalls g (pre ++ l :: post) = (pre, some e) := by
  intro pre
  induction pre with
  | nil =>
    intro l post e _ hl
    simp [runCalls, hl]
  | cons q rest ih =>
    intro l post e hpre hl
    have hq : g q = Except.ok () := hpre q (List.mem_cons_self q rest)
    have hrest := ih l post e
      (fun p hp => hpre p (List.mem_cons_of_mem q hp)) hl
    simp [runCalls, hq, hrest]

/-- C3: under a correct copier, if the stateless callback succeeds on every
qualifying record then the instrumented `Search` invokes it exactly once per
qualifying record (the log is the whole qualifying list) and returns
success; and if the qualifying records split as `pre ++ l :: post` with the
callback succeeding on `pre` and failing on `l`, then `Search` returns that
same failure having invoked the callback on no qualifying record past `l`
(the success log is exactly `pre`). -/
theorem search_callback_contract {ε : Type} (copy : CopyFn)
    (hc : CorrectCopy copy) (f : Filter) (g : Laptop → Except ε Unit)
    (data : StoreData) :
    ((∀ l ∈ qualifying f data, g l = Except.ok ()) →
       Search copy f (logCalls g) [] data =
         (qualifying f data, SearchResult.ok)) ∧
    (∀ (pre post : List Laptop) (l : Laptop) (e : ε),
       qualifying f data = pre ++ l :: post →
       (∀ p ∈ pre, g p = Except.ok ()) →
       g l = Except.error e →
       Search copy f (logCalls g) [] data =
         (pre, SearchResult.callbackErr e)) := by
  constructor
  · intro hall
    rw [search_log_eq copy hc f g data [], runCalls_all_ok g _ hall]
    simp [resOfOpt]
  · intro pre post l e hsplit hpre hl
    rw [search_log_eq copy hc f g data [], hsplit,
      runCalls_first_err g pre l post e hpre hl]
    simp [resOfOpt]

/-- A record that qualifies under the all-absent filter (every getter bound
is zero and its price is zero). -/
def freeLaptop : Laptop := { id := "w1", priceUsd := 0, cpu := none, ram := none }

/-- A second zero-priced record. -/
def freeLaptop2 : Laptop := { id := "w2", priceUsd := 0, cpu := none, ram := none }

/-- A callback that always fails. -/
def failCb : Laptop → Except String Unit := fun _ => Except.error "stop"

/-- C3 witness: on a two-record map whose records both qualify, a callback
failing on the first match makes `Search` return that failure with an empty
success log. -/
theorem search_callback_contract_witness :
    Search okCopy filterUnsetMax (logCalls failCb) []
      [(freeLaptop.id, freeLaptop), (freeLaptop2.id, freeLaptop2)] =
      ([], SearchResult.callbackErr "stop") :=
  (search_callback_contract okCopy (fun _ => rfl) filterUnsetMax failCb
      [(freeLaptop.id, freeLaptop), (freeLaptop2.id, freeLaptop2)]).2
    [] [freeLaptop2] freeLaptop "stop" (by decide) (by simp) rfl

/-! ### C7, C8 and C10: the CreateLaptop handler -/

/-- `saveAndRespond` seen through the second component of `Save`. -/
lemma saveAndRespond_eq (copy : CopyFn) (data : StoreData) (l : Laptop) :
    saveAndRespond copy data l =
      match (Save copy data l).2 with
      | some SaveErr.alreadyExist =>
        { response := none, code := Code.AlreadyExists,
          store := (Save copy data l).1, laptop := l }
      | some (SaveErr.copyFail _) =>
        { response := none, code := Code.Internal,
          store := (Save copy data l).1, laptop := l }
      | none =>
        { response := some l.id, code := Code.OK,
          store := (Save copy data l).1, laptop := l } := by
  unfold saveAndRespond
  rcases hs : Save copy data l with ⟨d2, oe⟩
  cases oe with
  | none => rfl
  | some se => cases se <;> rfl

/-- The save step never answers `InvalidArgument`. -/
lemma saveAndRespond_code_ne (copy : CopyFn) (data : StoreData)
    (l : Laptop) :
    (saveAndRespond copy data l).code ≠ Code.InvalidArgument := by
  rw [saveAndRespond_eq]
  cases h2 : (Save copy data l).2 with
  | none => simp
  | some se => cases se <;> simp

/-- The save step leaves the request's record as it received it. -/
lemma saveAndRespond_laptop (copy : CopyFn) (data : StoreData)
    (l : Laptop) : (saveAndRespond copy data l).laptop = l := by
  rw [saveAndRespond_eq]
  cases h2 : (Save copy data l).2 with
  | none => rfl
  | some se => cases se <;> rfl

/-- C7: for a request with a non-empty identifier, a parse failure makes the
handler answer `InvalidArgument` with the store untouched — `Save` is never
reached — while a successful parse hands the request unchanged to the save
step whatever the store holds, and the answer is then never
`InvalidArgument`. -/
theorem create_validation (parse : String → Except String Unit)
    (gen : Except String String) (copy : CopyFn) (data : StoreData)
    (laptop : Laptop) (hne : laptop.id.length > 0) :
    (∀ e, parse laptop.id = Except.error e →
       CreateLaptop parse gen copy data laptop =
         { response := none, code := Code.InvalidArgument, store := data,
           laptop := laptop }) ∧
    (∀ u, parse laptop.id = Except.ok u →
       CreateLaptop parse gen copy data laptop =
         saveAndRespond copy data laptop ∧
       (CreateLaptop parse gen copy data laptop).code ≠
         Code.InvalidArgument) := by
  constructor
  · intro e he
    unfold CreateLaptop
    rw [if_pos hne, he]
  · intro u hu
    have h1 : CreateLaptop parse gen copy data laptop =
        saveAndRespond copy data laptop := by
      unfold CreateLaptop
      rw [if_pos hne, hu]
    exact ⟨h1, h1 ▸ saveAndRespond_code_ne copy data laptop⟩

/-- A stand-in for one run of the external UUID parser, failing exactly on
the string the spec uses as its malformed example. -/
def parseStub : String → Except String Unit := fun s =>
  if s = "not-a-uuid" then Except.error "invalid UUID format"
  else Except.ok ()

/-- C7 witness: the identifier `"not-a-uuid"` is rejected with
`InvalidArgument` and an untouched store. -/
theorem create_validation_witness :
    CreateLaptop parseStub (Except.ok "gen") okCopy []
      { pricedLaptop with id := "not-a-uuid" } =
      { response := none, code := Code.InvalidArgument, store := [],
        laptop := { pricedLaptop with id := "not-a-uuid" } } :=
  (create_validation parseStub (Except.ok "gen") okCopy []
      { pricedLaptop with id := "not-a-uuid" } (by decide)).1
    "invalid UUID format" rfl

/-- C8: once a request reaches the save step — a non-empty identifier that
parsed, or an empty one replaced by a generated identifier — the handler is
the save step on the effective record; an `AlreadyExists` failure of `Save`
surfaces as `AlreadyExists`, any other `Save` failure as `Internal`, and on
success the response carries exactly the effective record's identifier. -/
theorem create_save_outcomes (parse : String → Except String Unit)
    (gen : Except String String) (copy : CopyFn) (data : StoreData)
    (laptop l' : Laptop)
    (hreach :
      (laptop.id.length > 0 ∧ parse laptop.id = Except.ok () ∧
        l' = laptop) ∨
      (laptop.id.length = 0 ∧ ∃ nid, gen = Except.ok nid ∧
        l' = { laptop with id := nid })) :
    CreateLaptop parse gen copy data laptop =
      saveAndRespond copy data l' ∧
    ((Save copy data l').2 = some SaveErr.alreadyExist →
       (CreateLaptop parse gen copy data laptop).code =
         Code.AlreadyExists) ∧
    (∀ m, (Save copy data l').2 = some (SaveErr.copyFail m) →
       (CreateLaptop parse gen copy data laptop).code = Code.Internal) ∧
    ((Save copy data l').2 = none →
       (CreateLaptop parse gen copy data laptop).response = some l'.id ∧
       (CreateLaptop parse gen copy data laptop).code = Code.OK) := by
  have hmain : CreateLaptop parse gen copy data laptop =
      saveAndRespond copy data l' := by
    rcases hreach with ⟨hpos, hparse, hl⟩ | ⟨hz, nid, hgen, hl⟩
    · unfold CreateLaptop
      rw [if_pos hpos, hparse, hl]
    · unfold CreateLaptop
      rw [if_neg (by omega), hgen, hl]
  refine ⟨hmain, ?_, ?_, ?_⟩
  · intro hae
    rw [hmain, saveAndRespond_eq, hae]
  · intro m hcf
    rw [hmain, saveAndRespond_eq, hcf]
  · intro hok
    rw [hmain, saveAndRespond_eq, hok]
    exact ⟨rfl, rfl⟩

/-- A request record with an empty identifier. -/
def emptyIdLaptop : Laptop :=
  { id := "", priceUsd := 0, cpu := none, ram := none }

/-- C8 witness: an empty-identifier request whose generated identifier saves
into the empty store answers `OK` with exactly that identifier. -/
theorem create_save_outcomes_witness :
    (CreateLaptop parseStub (Except.ok "nid") okCopy []
        emptyIdLaptop).response = some "nid" ∧
    (CreateLaptop parseStub (Except.ok "nid") okCopy []
        emptyIdLaptop).code = Code.OK :=
  (create_save_outcomes parseStub (Except.ok "nid") okCopy [] emptyIdLaptop
      { emptyIdLaptop with id := "nid" }
      (Or.inr ⟨by decide, "nid", rfl, rfl⟩)).2.2.2 (by decide)

/-- C10: for an empty-identifier request with a successful generation, the
handler rewrites the request record's identifier to the generated one before
the save step (the save step receives, and the request's record afterwards
is, the updated record), and every other field of the record is
unchanged. -/
theorem create_generated_id_frame (parse : String → Except String Unit)
    (gen : Except String String) (copy : CopyFn) (data : StoreData)
    (laptop : Laptop) (nid : String) (hempty : laptop.id.length = 0)
    (hgen : gen = Except.ok nid) :
    CreateLaptop parse gen copy data laptop =
      saveAndRespond copy data { laptop with id := nid } ∧
    (CreateLaptop parse gen copy data laptop).laptop =
      { laptop with id := nid } ∧
    ({ laptop with id := nid }).id = nid ∧
    ({ laptop with id := nid }).priceUsd = laptop.priceUsd ∧
    ({ laptop with id := nid }).cpu = laptop.cpu ∧
    ({ laptop with id := nid }).ram = laptop.ram := by
  have hmain : CreateLaptop parse gen copy data laptop =
      saveAndRespond copy data { laptop with id := nid } := by
    unfold CreateLaptop
    rw [if_neg (by omega), hgen]
  exact ⟨hmain,
    by rw [hmain, saveAndRespond_laptop], rfl, rfl, rfl, rfl⟩

/-- C10 witness: the generated identifier `"nid"` is written into the
request's record. -/
theorem create_generated_id_frame_witness :
    (CreateLaptop parseStub (Except.ok "nid") okCopy []
        emptyIdLaptop).laptop = { emptyIdLaptop with id := "nid" } :=
  (create_generated_id_frame parseStub (Except.ok "nid") okCopy []
      emptyIdLaptop "nid" (by decide) rfl).2.1

end GrpcApp
